import Mathlib

/-!
Verification development for the trading-bot repository: the indicator
engine, liquidity ranker, and the frontend display logic
(AssetCard.jsx, IndicatorBadge.jsx, Dashboard component).

The numeric backend (indicators.py, binance_api.py, api.py) is not part
of the source tree given here; those components are modelled from the
specification, as marked in the doc comments below.  Machine floats are
embedded as rationals (ℚ); division by zero in ℚ yields 0, matching the
spec's sentinel policy for zero denominators.
-/

/-- One OHLCV candle.  `open_` is the opening price (`open` is a Lean
keyword). -/
structure Candle where
  open_time : ℤ
  open_ : ℚ
  high : ℚ
  low : ℚ
  close : ℚ
  volume : ℚ
deriving DecidableEq, Repr

/-- Modelled from the spec: SmoothingPrimitives.SMA — arithmetic mean of
the last `period` values; absent (`none`) if fewer than `period` values
exist. -/
def calculate_sma (prices : List ℚ) (period : ℕ) : Option ℚ :=
  if period = 0 ∨ prices.length < period then none
  else some (((prices.reverse.take period).sum) / period)

/-- One step of Wilder smoothing with window `n`:
`prev*(n-1)/n + current/n`. -/
def wilderStep (n : ℕ) (prev current : ℚ) : ℚ :=
  prev * ((n : ℚ) - 1) / n + current / n

/-- Modelled from the spec: SmoothingPrimitives.Wilder smoothing — seed
is the simple average of the first `n` terms, each subsequent value is
`prev*(n-1)/n + current/n`.  Empty when fewer than `n` terms exist. -/
def wilderSmooth (n : ℕ) (xs : List ℚ) : List ℚ :=
  if n = 0 ∨ xs.length < n then []
  else List.scanl (wilderStep n) ((xs.take n).sum / n) (xs.drop n)

/-- Modelled from the spec: SmoothingPrimitives.EMA — smoothing constant
`k = 2/(n+1)`, seed = SMA of the first `n` terms,
`ema_t = price_t*k + ema_(t-1)*(1-k)`. -/
def emaSeq (n : ℕ) (xs : List ℚ) : List ℚ :=
  if n = 0 ∨ xs.length < n then []
  else List.scanl
    (fun prev price => price * (2 / ((n : ℚ) + 1)) + prev * (1 - 2 / ((n : ℚ) + 1)))
    ((xs.take n).sum / n) (xs.drop n)

/-- Per-candle gains: `max(close_t - close_(t-1), 0)`. -/
def gains (closes : List ℚ) : List ℚ :=
  (closes.zip closes.tail).map (fun p => max (p.2 - p.1) 0)

/-- Per-candle losses: `max(close_(t-1) - close_t, 0)`. -/
def losses (closes : List ℚ) : List ℚ :=
  (closes.zip closes.tail).map (fun p => max (p.1 - p.2) 0)

/-- Final Wilder-smoothed average gain over the window (0 when the
series is too short to produce any smoothed value). -/
def avgGain (closes : List ℚ) (period : ℕ) : ℚ :=
  ((wilderSmooth period (gains closes)).getLast?).getD 0

/-- Final Wilder-smoothed average loss over the window. -/
def avgLoss (closes : List ℚ) (period : ℕ) : ℚ :=
  ((wilderSmooth period (losses closes)).getLast?).getD 0

/-- Modelled from the spec: IndicatorEngine.RSI — Wilder-smooth the gain
and loss series independently; `RS = avg_gain/avg_loss`; if
`avg_loss = 0` then RSI = 100; else `RSI = 100 - 100/(1+RS)`.  Requires
at least `period+1` candles, otherwise absent. -/
def calculate_rsi (closes : List ℚ) (period : ℕ) : Option ℚ :=
  if period = 0 ∨ closes.length < period + 1 then none
  else if avgLoss closes period = 0 then some 100
  else some (100 - 100 / (1 + avgGain closes period / avgLoss closes period))

/-- MACD line: pointwise difference of the fast and slow EMA sequences,
aligned at the most recent value. -/
def macdLine (closes : List ℚ) (fast slow : ℕ) : List ℚ :=
  let ef := emaSeq fast closes
  let es := emaSeq slow closes
  let m := min ef.length es.length
  (((ef.reverse.take m).zip (es.reverse.take m)).map (fun p => p.1 - p.2)).reverse

/-- Modelled from the spec: IndicatorEngine.MACD —
`macd_line = EMA(close, fast) - EMA(close, slow)`;
`signal_line = EMA(macd_line, signal)`; `histogram = macd - signal`.
Returns the latest `(macd, signal, histogram)` triple, absent when the
series is too short. -/
def calculate_macd (closes : List ℚ) (fast slow sig : ℕ) : Option (ℚ × ℚ × ℚ) :=
  let ml := macdLine closes fast slow
  match ml.getLast?, (emaSeq sig ml).getLast? with
  | some m, some s => some (m, s, m - s)
  | _, _ => none

/-- The most recent `period` values of a series. -/
def lastWindow (closes : List ℚ) (period : ℕ) : List ℚ :=
  closes.drop (closes.length - period)

/-- Bollinger output.  Only the middle band and the population variance
of the window are rational; the upper/lower bands need the square root
of the variance and are determined by these two fields. -/
structure BollingerBands where
  middle : ℚ
  variance : ℚ
deriving DecidableEq, Repr

/-- Modelled from the spec: IndicatorEngine.Bollinger Bands —
`middle = SMA(close, period)`, computed here directly as the mean of the
trailing window; `variance` is the population variance of the last
`period` closes (its square root is the band stddev).  Absent when fewer
than `period` candles exist. -/
def calculate_bollinger (closes : List ℚ) (period : ℕ) : Option BollingerBands :=
  if period = 0 ∨ closes.length < period then none
  else
    let w := lastWindow closes period
    let mid := w.sum / period
    some ⟨mid, (w.map (fun x => (x - mid) ^ 2)).sum / period⟩

/-- True range per candle:
`max(high-low, |high-prev_close|, |low-prev_close|)`. -/
def trueRanges (candles : List Candle) : List ℚ :=
  (candles.zip candles.tail).map
    (fun p => max (p.2.high - p.2.low) (max |p.2.high - p.1.close| |p.2.low - p.1.close|))

/-- Modelled from the spec: IndicatorEngine.ATR — Wilder smoothing of
the true-range series over `period`; latest value, absent when the
series is too short. -/
def calculate_atr (candles : List Candle) (period : ℕ) : Option ℚ :=
  (wilderSmooth period (trueRanges candles)).getLast?

/-- Positive directional movement per candle. -/
def plusDMs (candles : List Candle) : List ℚ :=
  (candles.zip candles.tail).map
    (fun p =>
      let up := p.2.high - p.1.high
      let down := p.1.low - p.2.low
      if up > down ∧ up > 0 then up else 0)

/-- Negative directional movement per candle. -/
def minusDMs (candles : List Candle) : List ℚ :=
  (candles.zip candles.tail).map
    (fun p =>
      let up := p.2.high - p.1.high
      let down := p.1.low - p.2.low
      if down > up ∧ down > 0 then down else 0)

/-- Modelled from the spec: IndicatorEngine.ADX — Wilder-smooth `+DM`,
`-DM` and TR; `+DI = 100*smoothed(+DM)/smoothed(TR)` (resp. `-DI`);
`DX = 100*|+DI - -DI|/(+DI + -DI)` (0 when the denominator is 0, the
spec's sentinel); ADX = Wilder smoothing of the DX series.  Latest
value, absent when the series is too short. -/
def calculate_adx (candles : List Candle) (period : ℕ) : Option ℚ :=
  let sTR := wilderSmooth period (trueRanges candles)
  let sPDM := wilderSmooth period (plusDMs candles)
  let sMDM := wilderSmooth period (minusDMs candles)
  let dx := (sPDM.zip (sMDM.zip sTR)).map
    (fun t =>
      let pdi := 100 * t.1 / t.2.2
      let mdi := 100 * t.2.1 / t.2.2
      100 * |pdi - mdi| / (pdi + mdi))
  (wilderSmooth period dx).getLast?

/-- The per-instrument indicator bundle; absent fields are `none`. -/
structure IndicatorSet where
  rsi : Option ℚ
  sma20 : Option ℚ
  sma50 : Option ℚ
  sma200 : Option ℚ
  macd : Option (ℚ × ℚ × ℚ)
  bollinger_bands : Option BollingerBands
  atr : Option ℚ
  adx : Option ℚ
deriving DecidableEq, Repr

/-- The close-price series of a candle list. -/
def closesOf (candles : List Candle) : List ℚ :=
  candles.map Candle.close

/-- Modelled from the spec: IndicatorEngine.calculate_all_indicators
with the default periods (RSI 14, SMA 20/50/200, MACD 12/26/9,
Bollinger 20, ATR 14, ADX 14). -/
def calculate_all_indicators (candles : List Candle) : IndicatorSet :=
  let closes := closesOf candles
  { rsi := calculate_rsi closes 14
    sma20 := calculate_sma closes 20
    sma50 := calculate_sma closes 50
    sma200 := calculate_sma closes 200
    macd := calculate_macd closes 12 26 9
    bollinger_bands := calculate_bollinger closes 20
    atr := calculate_atr candles 14
    adx := calculate_adx candles 14 }

/-- The engine carries no state between runs; this type makes the
threading explicit for the purity claim. -/
def EngineState : Type := Unit

/-- Modelled from the spec: one engine invocation with explicit state
threading — the output depends only on the candle series, and the state
is passed through unchanged. -/
def runEngine (st : EngineState) (candles : List Candle) : IndicatorSet × EngineState :=
  (calculate_all_indicators candles, st)

/-- One liquidity-snapshot entry. -/
structure LiquidityEntry where
  symbol : String
  price : ℚ
  price_change_24h : ℚ
  volume_24h : ℚ
deriving DecidableEq, Repr

/-- The ranking order: larger `volume_24h` first, ties broken by symbol
lexical order. -/
def liqRank (a b : LiquidityEntry) : Prop :=
  b.volume_24h < a.volume_24h ∨ (a.volume_24h = b.volume_24h ∧ a.symbol ≤ b.symbol)

instance : DecidableRel liqRank := fun a b => by unfold liqRank; infer_instance

instance : IsTrans LiquidityEntry liqRank := by
  constructor
  intro a b c hab hbc
  rcases hab with h1 | ⟨h1, h1s⟩ <;> rcases hbc with h2 | ⟨h2, h2s⟩
  · exact Or.inl (h2.trans h1)
  · exact Or.inl (h2 ▸ h1)
  · exact Or.inl (h1 ▸ h2)
  · exact Or.inr ⟨h1.trans h2, le_trans h1s h2s⟩

instance : IsTotal LiquidityEntry liqRank := by
  constructor
  intro a b
  rcases lt_trichotomy a.volume_24h b.volume_24h with h | h | h
  · exact Or.inr (Or.inl h)
  · rcases le_total a.symbol b.symbol with hs | hs
    · exact Or.inl (Or.inr ⟨h, hs⟩)
    · exact Or.inr (Or.inr ⟨h.symm, hs⟩)
  · exact Or.inl (Or.inl h)

/-- Modelled from the spec: LiquidityRanker.top_n — the `count` entries
with the largest `volume_24h`, sorted descending by volume, ties broken
by symbol lexical order (stable sort); returns all entries when fewer
than `count` exist. -/
def top_n (snapshot : List LiquidityEntry) (count : ℕ) : List LiquidityEntry :=
  (List.insertionSort liqRank snapshot).take count

/-- Modelled from the spec: LiquidityRanker.most_liquid — the entry with
maximum `volume_24h` (same tie-break), absent on an empty snapshot. -/
def most_liquid (snapshot : List LiquidityEntry) : Option LiquidityEntry :=
  (List.insertionSort liqRank snapshot).head?

/-- The snapshot of the spec's worked example. -/
def exA : LiquidityEntry := ⟨"A", 0, 0, 10⟩

/-- Worked-example entry B. -/
def exB : LiquidityEntry := ⟨"B", 0, 0, 30⟩

/-- Worked-example entry C. -/
def exC : LiquidityEntry := ⟨"C", 0, 0, 20⟩

/-- Worked-example entry D. -/
def exD : LiquidityEntry := ⟨"D", 0, 0, 5⟩

/-- A scalar JSON field as the frontend sees it: JavaScript `undefined`,
`null`, or a number. -/
inductive JField where
  | undefined : JField
  | null : JField
  | num : ℚ → JField
deriving DecidableEq, Repr

/-- JavaScript truthiness of a scalar field (`undefined`, `null` and `0`
are falsy). -/
def JField.truthy : JField → Bool
  | .undefined => false
  | .null => false
  | .num q => q != 0

/-- The claim's notion of a field being present: neither `undefined` nor
`null` (stated from the spec's words, to compare with the code's
guards). -/
def claimPresent (f : JField) : Bool :=
  f != .undefined && f != .null

/-- The `macd` sub-object of the indicators payload
(`{macd, signal, histogram}`). -/
structure MacdObj where
  macd : JField
  signal : JField
  histogram : JField
deriving DecidableEq, Repr

/-- The `bollinger_bands` sub-object (`{upper, middle, lower}`). -/
structure BBObj where
  upper : JField
  middle : JField
  lower : JField
deriving DecidableEq, Repr

/-- One `sma.smaN` sub-object: the frontend reads `smaN.value`. -/
structure SmaEntry where
  value : JField
deriving DecidableEq, Repr

/-- The `sma` sub-object; `none` models an absent (or null) object,
which optional chaining turns into `undefined`. -/
structure SmaObj where
  sma20 : Option SmaEntry
  sma50 : Option SmaEntry
  sma200 : Option SmaEntry
deriving DecidableEq, Repr

/-- The `indicators` prop received by AssetCard.  `Option` on the nested
objects models JavaScript absence/null of the object itself (both falsy
and both turned into `undefined` by optional chaining). -/
structure IndicatorsProp where
  rsi : JField
  macd : Option MacdObj
  bollinger_bands : Option BBObj
  sma : Option SmaObj
  atr : JField
  adx : JField
deriving DecidableEq, Repr

/-- AssetCard.jsx: the RSI badge guard
`indicators.rsi !== undefined && indicators.rsi !== null`. -/
def showRSI (i : IndicatorsProp) : Bool :=
  i.rsi != .undefined && i.rsi != .null

/-- AssetCard.jsx: the MACD/Signal badge guard `indicators.macd && ...`
(the container object is truthy). -/
def showMACD (i : IndicatorsProp) : Bool :=
  i.macd.isSome

/-- AssetCard.jsx: the Bollinger badge guard
`indicators.bollinger_bands && ...`. -/
def showBB (i : IndicatorsProp) : Bool :=
  i.bollinger_bands.isSome

/-- AssetCard.jsx: the value of the optional chain
`indicators.sma?.sma20?.value`. -/
def sma20Value (i : IndicatorsProp) : JField :=
  match i.sma with
  | none => .undefined
  | some s =>
    match s.sma20 with
    | none => .undefined
    | some e => e.value

/-- AssetCard.jsx: the SMA 20 badge guard
`indicators.sma?.sma20?.value !== undefined` (note: no null check). -/
def showSMA20 (i : IndicatorsProp) : Bool :=
  sma20Value i != .undefined

/-- AssetCard.jsx: the ATR badge guard
`indicators.atr !== undefined && indicators.atr !== null`. -/
def showATR (i : IndicatorsProp) : Bool :=
  i.atr != .undefined && i.atr != .null

/-- AssetCard.jsx: the ADX badge guard
`indicators.adx !== undefined && indicators.adx !== null`. -/
def showADX (i : IndicatorsProp) : Bool :=
  i.adx != .undefined && i.adx != .null

/-- The badge colour classes used by the frontend. -/
inductive BadgeType where
  | success : BadgeType
  | danger : BadgeType
  | warning : BadgeType
  | neutral : BadgeType
deriving DecidableEq, Repr

/-- AssetCard.jsx `getMACD`: if both `indicators?.macd?.macd` and
`indicators?.macd?.signal` are truthy, `success` when macd > signal and
`danger` otherwise; `neutral` when either is falsy. -/
def getMACD (macd signal : JField) : BadgeType :=
  if macd.truthy && signal.truthy then
    match macd, signal with
    | .num m, .num s => if s < m then .success else .danger
    | _, _ => .neutral
  else .neutral

/-- A JavaScript value as IndicatorBadge.formatValue receives it. -/
inductive JSVal where
  | undefined : JSVal
  | null : JSVal
  | bool : Bool → JSVal
  | num : ℚ → JSVal
  | str : String → JSVal
deriving DecidableEq, Repr

/-- JavaScript truthiness (`undefined`, `null`, `false`, `0` and the
empty string are falsy). -/
def JSVal.truthy : JSVal → Bool
  | .undefined => false
  | .null => false
  | .bool b => b
  | .num q => q != 0
  | .str s => s != ""

/-- The character of a decimal digit. -/
def decDigitChar (d : ℕ) : Char := Char.ofNat (48 + d % 10)

/-- The decimal digits of `m`, least significant processed first,
emitting exactly `dp` characters (most significant first). -/
def fracDigitChars : ℕ → ℕ → List Char
  | 0, _ => []
  | d + 1, m => fracDigitChars d (m / 10) ++ [decDigitChar (m % 10)]

/-- JavaScript `Number.prototype.toFixed dp` on a rational: round `|q| * 10^dp` to
the nearest integer (ties away from zero), then print sign, integer
part, a dot, and exactly `dp` fractional digits. -/
def toFixedChars (dp : ℕ) (q : ℚ) : List Char :=
  let n : ℕ := (⌊|q| * (10 : ℚ) ^ dp + 1 / 2⌋).toNat
  let sign : List Char := if q < 0 then ['-'] else []
  if dp = 0 then sign ++ (Nat.repr (n)).data
  else sign ++ (Nat.repr (n / 10 ^ dp)).data ++ '.' :: fracDigitChars dp (n % 10 ^ dp)

/-- The `toFixed` output packaged as a string. -/
def toFixed (dp : ℕ) (q : ℚ) : String :=
  String.mk (toFixedChars dp q)

/-- IndicatorBadge.jsx `formatValue`: numbers are fixed-point formatted
with 2, 4 or 8 decimals by magnitude; otherwise a truthy value is
returned unchanged and a falsy one becomes the string N/A. -/
def formatValue (val : JSVal) : JSVal :=
  match val with
  | .num v =>
    if 1 ≤ |v| then .str (toFixed 2 v)
    else if 1 / 100 ≤ |v| then .str (toFixed 4 v)
    else .str (toFixed 8 v)
  | v => if v.truthy then v else .str "N/A"

/-- The number of characters after the last dot of a string (the
rendered decimal places when a dot is present). -/
def decimalPlaces (s : String) : ℕ :=
  (s.data.reverse.takeWhile (fun c => c != '.')).length

/-- The backend's configured refresh cadence in seconds
(`UPDATE_INTERVAL`, README default 5). -/
def UPDATE_INTERVAL_DEFAULT : ℕ := 5

/-- Dashboard component: the poll period passed to
`setInterval(() => fetchData(), 5000)`, in milliseconds. -/
def DASHBOARD_POLL_MS : ℕ := 5000

/-- A minimal timer world: a fresh-id counter and the set of active
intervals `(id, period in ms)`. -/
structure TimerWorld where
  nextId : ℕ
  active : List (ℕ × ℕ)
deriving DecidableEq, Repr

/-- JavaScript `setInterval` in the timer world: registers a new interval and
returns its id. -/
def setIntervalW (w : TimerWorld) (periodMs : ℕ) : TimerWorld × ℕ :=
  (⟨w.nextId + 1, (w.nextId, periodMs) :: w.active⟩, w.nextId)

/-- JavaScript `clearInterval` in the timer world: removes the interval. -/
def clearIntervalW (w : TimerWorld) (id : ℕ) : TimerWorld :=
  ⟨w.nextId, w.active.filter (fun t => t.1 != id)⟩

/-- The Dashboard mount effect: schedule the re-fetch interval at the
hard-coded 5000 ms. -/
def dashboardMount (w : TimerWorld) : TimerWorld × ℕ :=
  setIntervalW w DASHBOARD_POLL_MS

/-- The Dashboard unmount cleanup: clear the interval created at
mount. -/
def dashboardUnmount (w : TimerWorld) (id : ℕ) : TimerWorld :=
  clearIntervalW w id

/-- Time (ms after mount) of the k-th scheduled re-fetch. -/
def dashboardFetchTime (k : ℕ) : ℕ :=
  k * DASHBOARD_POLL_MS

theorem scanl_wilderStep_const (n : ℕ) (c : ℚ) (h : wilderStep n c c = c) :
    ∀ k : ℕ, List.scanl (wilderStep n) c (List.replicate k c) = List.replicate (k + 1) c := by
  intro k
  induction k with
  | zero => simp [List.scanl]
  | succ k ih => rw [List.replicate_succ, List.scanl, h, ih]; simp [List.replicate_succ]

/-- C5: Wilder smoothing, seeded with the simple average of the first
`n` terms and continued with `prev*(n-1)/n + current/n`, produces the
constant `c` at every step when run on a constant series. -/
theorem wilder_smoothing_constant_series (n m : ℕ) (c : ℚ) (h1 : 1 ≤ n) (h2 : n ≤ m) :
    wilderSmooth n (List.replicate m c) = List.replicate (m - n + 1) c := by
  have hn : (n : ℚ) ≠ 0 := Nat.cast_ne_zero.mpr (by omega)
  have hcond : ¬(n = 0 ∨ (List.replicate m c).length < n) := by
    simp only [List.length_replicate]; omega
  unfold wilderSmooth
  rw [if_neg hcond, List.take_replicate, List.drop_replicate]
  have hmin : min n m = n := by omega
  rw [hmin]
  have hsum : (List.replicate n c).sum = (n : ℚ) * c := by
    simp [List.sum_replicate, nsmul_eq_mul]
  rw [hsum]
  have hseed : (n : ℚ) * c / n = c := by field_simp
  rw [hseed]
  have hstep : wilderStep n c c = c := by unfold wilderStep; field_simp; ring
  exact scanl_wilderStep_const n c hstep (m - n)

/-- C5 witness: Wilder smoothing with window 2 on four copies of 5
yields the constant sequence `[5, 5, 5]`. -/
theorem wilder_smoothing_constant_series_witness :
    wilderSmooth 2 (List.replicate 4 (5 : ℚ)) = List.replicate 3 (5 : ℚ) :=
  wilder_smoothing_constant_series 2 4 5 (by norm_num) (by norm_num)

/-- C7: indicator computation is a pure function of the candle series —
running the engine twice on the same series, threading the state of the
first run into the second, yields identical output, and the output does
not depend on the incoming state at all. -/
theorem engine_purity (st st' : EngineState) (candles : List Candle) :
    (runEngine st candles).1 = (runEngine (runEngine st candles).2 candles).1 ∧
    (runEngine st candles).1 = (runEngine st' candles).1 :=
  ⟨rfl, rfl⟩

/-- C7 witness: the engine applied twice to the empty series from the
initial state produces the same output both times. -/
theorem engine_purity_witness :
    (runEngine () []).1 = (runEngine (runEngine () []).2 []).1 ∧
    (runEngine () []).1 = (runEngine () []).1 :=
  engine_purity () () []

/-- C8: the Dashboard schedules a re-fetch every 5000 ms — this equals
the default `UPDATE_INTERVAL` of 5 seconds — from mount (which registers
the interval) until unmount (whose cleanup clears exactly that
interval); consecutive scheduled fetches are 5000 ms apart. -/
theorem dashboard_refresh_cadence :
    DASHBOARD_POLL_MS = UPDATE_INTERVAL_DEFAULT * 1000 ∧
    (∀ w : TimerWorld, ((dashboardMount w).2, DASHBOARD_POLL_MS) ∈ (dashboardMount w).1.active) ∧
    (∀ w : TimerWorld, ∀ id : ℕ,
      ((dashboardUnmount w id).active.all (fun t => t.1 != id)) = true) ∧
    (∀ k : ℕ, dashboardFetchTime (k + 1) = dashboardFetchTime k + DASHBOARD_POLL_MS) := by
  refine ⟨rfl, ?_, ?_, ?_⟩
  · intro w
    simp [dashboardMount, setIntervalW]
  · intro w id
    rw [List.all_eq_true]
    intro t ht
    have ht' : t ∈ w.active.filter (fun x => x.1 != id) := ht
    exact (List.mem_filter.mp ht').2
  · intro k
    simp [dashboardFetchTime, Nat.succ_mul]

/-- C8 witness: the first two scheduled re-fetches are 5000 ms
apart. -/
theorem dashboard_refresh_cadence_witness :
    dashboardFetchTime 1 = dashboardFetchTime 0 + DASHBOARD_POLL_MS :=
  dashboard_refresh_cadence.2.2.2 0

/-- C3: `top_n count` is sorted descending by `volume_24h` with ties
broken by symbol lexical order; it has `min count n` entries; when the
snapshot has at most `count` entries it returns all of them (as a
permutation of the snapshot, never erroring or padding); and on the
worked example `[{A,10},{B,30},{C,20},{D,5}]`, `top_n 3` returns
`[B(30), C(20), A(10)]`. -/
theorem top_n_spec :
    (∀ (s : List LiquidityEntry) (count : ℕ), List.Pairwise liqRank (top_n s count)) ∧
    (∀ (s : List LiquidityEntry) (count : ℕ), (top_n s count).length = min count s.length) ∧
    (∀ (s : List LiquidityEntry) (count : ℕ), s.length ≤ count → (top_n s count).Perm s) ∧
    top_n [exA, exB, exC, exD] 3 = [exB, exC, exA] := by
  refine ⟨?_, ?_, ?_, by decide⟩
  · intro s count
    exact List.Pairwise.sublist (List.take_sublist _ _) (List.sorted_insertionSort liqRank s)
  · intro s count
    simp [top_n, (List.perm_insertionSort liqRank s).length_eq]
  · intro s count h
    have hlen : (List.insertionSort liqRank s).length ≤ count := by
      rw [(List.perm_insertionSort liqRank s).length_eq]; exact h
    rw [top_n, List.take_of_length_le hlen]
    exact List.perm_insertionSort liqRank s

/-- C3 witness: a snapshot smaller than the requested count is returned
whole. -/
theorem top_n_spec_witness : (top_n [exA] 3).Perm [exA] :=
  top_n_spec.2.2.1 [exA] 3 (by norm_num)

/-- C4: `most_liquid` is absent exactly on the empty snapshot, and on a
non-empty snapshot it returns an entry of the snapshot whose
`volume_24h` is maximal. -/
theorem most_liquid_spec :
    (∀ s : List LiquidityEntry, most_liquid s = none ↔ s = []) ∧
    (∀ (s : List LiquidityEntry) (e : LiquidityEntry), most_liquid s = some e →
      e ∈ s ∧ ∀ x ∈ s, x.volume_24h ≤ e.volume_24h) := by
  constructor
  · intro s
    rw [most_liquid, List.head?_eq_none_iff]
    constructor
    · intro h
      have := (List.perm_insertionSort liqRank s).length_eq
      rw [h] at this
      exact List.length_eq_zero.mp this.symm
    · intro h
      subst h
      rfl
  · intro s e h
    rw [most_liquid] at h
    have hperm := List.perm_insertionSort liqRank s
    have hmem : e ∈ s := hperm.mem_iff.mp (List.mem_of_mem_head? h)
    refine ⟨hmem, ?_⟩
    intro x hx
    have hx' : x ∈ List.insertionSort liqRank s := hperm.mem_iff.mpr hx
    have hsorted := List.sorted_insertionSort liqRank s
    rcases hsort : List.insertionSort liqRank s with _ | ⟨hd, tl⟩
    · rw [hsort] at hx'
      exact absurd hx' (List.not_mem_nil x)
    · rw [hsort] at h hx' hsorted
      have hhd : hd = e := by
        simpa using h
      subst hhd
      rcases List.mem_cons.mp hx' with rfl | hx''
      · exact le_refl _
      · have hrank : liqRank hd x := List.rel_of_sorted_cons hsorted x hx''
        rcases hrank with hlt | ⟨heq, _⟩
        · exact le_of_lt hlt
        · exact le_of_eq heq.symm

/-- C4 witness: on the one-entry snapshot `[A(10)]`, `most_liquid`
returns an entry of the snapshot. -/
theorem most_liquid_spec_witness : exA ∈ [exA] :=
  (most_liquid_spec.2 [exA] exA (by decide)).1

theorem scanl_wilderStep_nonneg (n : ℕ) (h : 1 ≤ n) :
    ∀ (l : List ℚ) (b : ℚ), 0 ≤ b → (∀ y ∈ l, 0 ≤ y) →
      ∀ x ∈ List.scanl (wilderStep n) b l, 0 ≤ x := by
  intro l
  induction l with
  | nil =>
    intro b hb _ x hx
    rw [List.scanl] at hx
    rcases List.mem_singleton.mp hx with rfl
    exact hb
  | cons a t ih =>
    intro b hb hl x hx
    rw [List.scanl] at hx
    rcases List.mem_cons.mp hx with rfl | hx'
    · exact hb
    · have ha : 0 ≤ a := hl a (List.mem_cons_self a t)
      have hnq : (0 : ℚ) < n := by exact_mod_cast Nat.pos_of_ne_zero (by omega)
      have hn1 : (0 : ℚ) ≤ (n : ℚ) - 1 := by
        have : (1 : ℚ) ≤ (n : ℚ) := by exact_mod_cast h
        linarith
      have hstep : 0 ≤ wilderStep n b a :=
        add_nonneg (div_nonneg (mul_nonneg hb hn1) hnq.le) (div_nonneg ha hnq.le)
      exact ih (wilderStep n b a) hstep (fun y hy => hl y (List.mem_cons_of_mem a hy)) x hx'

theorem wilderSmooth_nonneg (n : ℕ) (h : 1 ≤ n) (xs : List ℚ)
    (hxs : ∀ y ∈ xs, 0 ≤ y) : ∀ x ∈ wilderSmooth n xs, 0 ≤ x := by
  intro x hx
  unfold wilderSmooth at hx
  split at hx
  · exact absurd hx (List.not_mem_nil x)
  · have hnq : (0 : ℚ) < n := by exact_mod_cast Nat.pos_of_ne_zero (by omega)
    have hseed : 0 ≤ (xs.take n).sum / n :=
      div_nonneg (List.sum_nonneg (fun y hy => hxs y ((List.take_sublist n xs).subset hy))) hnq.le
    exact scanl_wilderStep_nonneg n h (xs.drop n) _ hseed
      (fun y hy => hxs y ((List.drop_sublist n xs).subset hy)) x hx

theorem losses_nonneg (closes : List ℚ) : ∀ y ∈ losses closes, 0 ≤ y := by
  intro y hy
  obtain ⟨p, _, rfl⟩ := List.mem_map.mp hy
  exact le_max_right _ _

theorem gains_nonneg (closes : List ℚ) : ∀ y ∈ gains closes, 0 ≤ y := by
  intro y hy
  obtain ⟨p, _, rfl⟩ := List.mem_map.mp hy
  exact le_max_right _ _

theorem avgLoss_nonneg (closes : List ℚ) (period : ℕ) (h : 1 ≤ period) :
    0 ≤ avgLoss closes period := by
  unfold avgLoss
  cases hc : (wilderSmooth period (losses closes)).getLast? with
  | none => simp
  | some y =>
    rw [Option.getD_some]
    exact wilderSmooth_nonneg period h _ (losses_nonneg closes) y (List.mem_of_mem_getLast? hc)

theorem avgGain_nonneg (closes : List ℚ) (period : ℕ) (h : 1 ≤ period) :
    0 ≤ avgGain closes period := by
  unfold avgGain
  cases hc : (wilderSmooth period (gains closes)).getLast? with
  | none => simp
  | some y =>
    rw [Option.getD_some]
    exact wilderSmooth_nonneg period h _ (gains_nonneg closes) y (List.mem_of_mem_getLast? hc)

/-- C2: on a series of at least `period+1` candles, RSI is computed
(not absent), lies within `[0, 100]`, and equals exactly 100 when the
Wilder-smoothed average loss is zero. -/
theorem rsi_within_bounds (closes : List ℚ) (period : ℕ) (h1 : 1 ≤ period)
    (h2 : period + 1 ≤ closes.length) :
    ∃ r, calculate_rsi closes period = some r ∧ 0 ≤ r ∧ r ≤ 100 ∧
      (avgLoss closes period = 0 → r = 100) := by
  unfold calculate_rsi
  rw [if_neg (by omega)]
  by_cases hL : avgLoss closes period = 0
  · rw [if_pos hL]
    exact ⟨100, rfl, by norm_num, by norm_num, fun _ => rfl⟩
  · rw [if_neg hL]
    refine ⟨_, rfl, ?_, ?_, fun hc => absurd hc hL⟩
    all_goals
      have hLpos : 0 < avgLoss closes period :=
        lt_of_le_of_ne (avgLoss_nonneg closes period h1) (Ne.symm hL)
      have hG : 0 ≤ avgGain closes period := avgGain_nonneg closes period h1
      have ht : 0 ≤ avgGain closes period / avgLoss closes period := div_nonneg hG hLpos.le
    · have hle : 100 / (1 + avgGain closes period / avgLoss closes period) ≤ 100 :=
        div_le_self (by norm_num) (by linarith)
      linarith
    · have hpos : 0 < 100 / (1 + avgGain closes period / avgLoss closes period) :=
        div_pos (by norm_num) (by linarith)
      linarith

/-- C2 witness: the strictly increasing series `[1, 2, 3]` with period 2
has a zero smoothed loss, so its RSI exists, is within bounds, and is
forced to 100. -/
theorem rsi_within_bounds_witness :
    ∃ r, calculate_rsi [1, 2, 3] 2 = some r ∧ 0 ≤ r ∧ r ≤ 100 ∧
      (avgLoss [1, 2, 3] 2 = 0 → r = 100) :=
  rsi_within_bounds [1, 2, 3] 2 (by norm_num) (by norm_num)

theorem sum_take_reverse (l : List ℚ) (p : ℕ) (h : p ≤ l.length) :
    (l.reverse.take p).sum = (l.drop (l.length - p)).sum := by
  have hrev : l.reverse = (l.drop (l.length - p)).reverse ++ (l.take (l.length - p)).reverse := by
    conv_lhs => rw [← List.take_append_drop (l.length - p) l]
    rw [List.reverse_append]
  have hlen : (l.drop (l.length - p)).reverse.length = p := by
    simp only [List.length_reverse, List.length_drop]
    omega
  rw [hrev, List.take_left' hlen, List.sum_reverse]

/-- C6: on a series of at least `period` candles, the Bollinger Bands
are computed and their middle band equals the independently computed
`SMA(period)` of the same close-price series. -/
theorem bollinger_middle_eq_sma (closes : List ℚ) (period : ℕ) (h1 : 1 ≤ period)
    (h2 : period ≤ closes.length) :
    ∃ bb, calculate_bollinger closes period = some bb ∧
      calculate_sma closes period = some bb.middle := by
  unfold calculate_bollinger calculate_sma
  rw [if_neg (by omega), if_neg (by omega)]
  refine ⟨_, rfl, ?_⟩
  rw [Option.some.injEq, lastWindow]
  rw [sum_take_reverse closes period h2]

/-- C6 witness: on `[1, 2, 3, 4]` with period 2 the bands exist and the
middle band coincides with SMA(2). -/
theorem bollinger_middle_eq_sma_witness :
    ∃ bb, calculate_bollinger [1, 2, 3, 4] 2 = some bb ∧
      calculate_sma [1, 2, 3, 4] 2 = some bb.middle :=
  bollinger_middle_eq_sma [1, 2, 3, 4] 2 (by norm_num) (by norm_num)

/-- C10: the MACD badge is `success` exactly when both values are
truthy numbers with macd > signal, `danger` exactly when both are truthy
with macd ≤ signal, `neutral` exactly when either value is falsy (0,
null or undefined) — in particular a MACD line of exactly 0 yields
`neutral` even when a signal value is present. -/
theorem getMACD_badge_type :
    (∀ m s : JField, getMACD m s = .success ↔
      ∃ qm qs : ℚ, m = .num qm ∧ s = .num qs ∧ qm ≠ 0 ∧ qs ≠ 0 ∧ qs < qm) ∧
    (∀ m s : JField, getMACD m s = .danger ↔
      ∃ qm qs : ℚ, m = .num qm ∧ s = .num qs ∧ qm ≠ 0 ∧ qs ≠ 0 ∧ qm ≤ qs) ∧
    (∀ m s : JField, getMACD m s = .neutral ↔ (m.truthy = false ∨ s.truthy = false)) ∧
    (∀ qs : ℚ, getMACD (.num 0) (.num qs) = .neutral) := by
  refine ⟨?_, ?_, ?_, ?_⟩
  · intro m s
    cases m <;> cases s <;>
      simp [getMACD, JField.truthy, bne_iff_ne] <;>
      split_ifs <;> simp_all
  · intro m s
    cases m <;> cases s <;>
      simp [getMACD, JField.truthy, bne_iff_ne] <;>
      split_ifs <;> simp_all
  · intro m s
    cases m <;> cases s <;>
      simp [getMACD, JField.truthy, bne_iff_ne] <;>
      split_ifs <;> simp_all <;> tauto
  · intro qs
    simp [getMACD, JField.truthy]

/-- C10 witness: a zero MACD line with a present signal value yields a
neutral badge. -/
theorem getMACD_badge_type_witness : getMACD (.num 0) (.num 3) = .neutral :=
  getMACD_badge_type.2.2.2 3

/-- An indicators payload whose `sma.sma20.value` is JavaScript `null`
(everything else absent). -/
def nullSmaIndicators : IndicatorsProp :=
  { rsi := .undefined
    macd := none
    bollinger_bands := none
    sma := some { sma20 := some { value := .null }, sma50 := none, sma200 := none }
    atr := .undefined
    adx := .undefined }

/-- C1 counterexample: AssetCard guards the SMA 20 badge only with
`!== undefined`, so an explicitly null `sma.sma20.value` still renders a
badge even though the field is not present (it is null) — refuting the
claim that a badge is rendered only when the field is neither undefined
nor null. -/
theorem sma_badge_renders_null_value :
    showSMA20 nullSmaIndicators = true ∧
    claimPresent (sma20Value nullSmaIndicators) = false := by
  decide

/-- C1 amended: the engine omits SMA and RSI (absent, not zero, no
exception) on undersized series; the RSI, ATR and ADX badges are
rendered exactly when their field is present (neither undefined nor
null); but the SMA badges are guarded only against `undefined` — a null
value still renders a badge — and the MACD badges render whenever the
`macd` container object is present. -/
theorem indicator_presence_gating :
    (∀ (prices : List ℚ) (period : ℕ), prices.length < period →
      calculate_sma prices period = none) ∧
    (∀ (closes : List ℚ) (period : ℕ), closes.length < period + 1 →
      calculate_rsi closes period = none) ∧
    (∀ i : IndicatorsProp, showRSI i = claimPresent i.rsi) ∧
    (∀ i : IndicatorsProp, showATR i = claimPresent i.atr) ∧
    (∀ i : IndicatorsProp, showADX i = claimPresent i.adx) ∧
    (∀ i : IndicatorsProp, sma20Value i = .null → showSMA20 i = true) ∧
    (∀ (i : IndicatorsProp) (m : MacdObj), i.macd = some m → showMACD i = true) := by
  refine ⟨?_, ?_, fun _ => rfl, fun _ => rfl, fun _ => rfl, ?_, ?_⟩
  · intro prices period h
    rw [calculate_sma, if_pos (Or.inr h)]
  · intro closes period h
    rw [calculate_rsi, if_pos (Or.inr h)]
  · intro i h
    rw [showSMA20, h]
    rfl
  · intro i m h
    rw [showMACD, h]
    rfl

/-- C1 witness: a one-candle close series is below every default
window, so SMA(20) is absent from the output. -/
theorem indicator_presence_gating_witness : calculate_sma [1] 20 = none :=
  indicator_presence_gating.1 [1] 20 (by norm_num)

theorem length_fracDigitChars (d : ℕ) : ∀ m : ℕ, (fracDigitChars d m).length = d := by
  induction d with
  | zero => intro m; rfl
  | succ d ih => intro m; simp [fracDigitChars, ih]

theorem decDigitChar_ne_dot (x : ℕ) : (decDigitChar x != '.') = true := by
  unfold decDigitChar
  have h : x % 10 < 10 := Nat.mod_lt x (by norm_num)
  set r := x % 10 with hr
  interval_cases r <;> decide

theorem fracDigitChars_ne_dot (d : ℕ) :
    ∀ m : ℕ, ∀ c ∈ fracDigitChars d m, (c != '.') = true := by
  induction d with
  | zero => intro m c hc; exact absurd hc (List.not_mem_nil c)
  | succ d ih =>
    intro m c hc
    rw [fracDigitChars] at hc
    rcases List.mem_append.mp hc with h | h
    · exact ih (m / 10) c h
    · rcases List.mem_singleton.mp h with rfl
      exact decDigitChar_ne_dot (m % 10)

theorem takeWhile_append_stop (p : Char → Bool) (l1 : List Char) (c : Char) (l2 : List Char)
    (h1 : ∀ x ∈ l1, p x = true) (h2 : p c = false) :
    (l1 ++ c :: l2).takeWhile p = l1 := by
  induction l1 with
  | nil => simp [List.takeWhile_cons, h2]
  | cons a t ih =>
    rw [List.cons_append, List.takeWhile_cons, h1 a (List.mem_cons_self a t)]
    rw [ih (fun x hx => h1 x (List.mem_cons_of_mem a hx))]
    simp

theorem decimalPlaces_toFixed (dp : ℕ) (h : dp ≠ 0) (q : ℚ) :
    decimalPlaces (toFixed dp q) = dp := by
  unfold decimalPlaces toFixed toFixedChars
  rw [if_neg h]
  show ((((if q < 0 then ['-'] else []) ++ (Nat.repr _).data ++
      '.' :: fracDigitChars dp _).reverse.takeWhile (fun c => c != '.')).length) = dp
  rw [List.reverse_append, List.reverse_append, List.reverse_cons]
  rw [List.append_assoc, List.singleton_append]
  rw [takeWhile_append_stop _ _ '.' _
    (fun x hx => fracDigitChars_ne_dot dp _ x (List.mem_reverse.mp hx)) (by decide)]
  rw [List.length_reverse, length_fracDigitChars]

/-- C9: `formatValue` renders a number with exactly 2 decimal places
when `|v| ≥ 1`, exactly 4 when `0.01 ≤ |v| < 1`, exactly 8 when
`|v| < 0.01`; each non-numeric falsy value (undefined, null, the empty
string, false) renders as the literal text N/A; and every non-numeric
truthy value is returned unchanged. -/
theorem formatValue_spec :
    (∀ v : ℚ, 1 ≤ |v| →
      formatValue (.num v) = .str (toFixed 2 v) ∧ decimalPlaces (toFixed 2 v) = 2) ∧
    (∀ v : ℚ, 1 / 100 ≤ |v| → |v| < 1 →
      formatValue (.num v) = .str (toFixed 4 v) ∧ decimalPlaces (toFixed 4 v) = 4) ∧
    (∀ v : ℚ, |v| < 1 / 100 →
      formatValue (.num v) = .str (toFixed 8 v) ∧ decimalPlaces (toFixed 8 v) = 8) ∧
    formatValue .undefined = .str "N/A" ∧
    formatValue .null = .str "N/A" ∧
    formatValue (.str "") = .str "N/A" ∧
    formatValue (.bool false) = .str "N/A" ∧
    (∀ v : JSVal, v.truthy = true → (∀ q : ℚ, v ≠ .num q) → formatValue v = v) := by
  refine ⟨?_, ?_, ?_, rfl, rfl, rfl, rfl, ?_⟩
  · intro v hv
    constructor
    · simp only [formatValue]
      rw [if_pos hv]
    · exact decimalPlaces_toFixed 2 (by norm_num) v
  · intro v hv1 hv2
    constructor
    · simp only [formatValue]
      rw [if_neg (not_le.mpr hv2), if_pos hv1]
    · exact decimalPlaces_toFixed 4 (by norm_num) v
  · intro v hv
    constructor
    · simp only [formatValue]
      rw [if_neg (not_le.mpr (lt_of_lt_of_le hv (by norm_num))), if_neg (not_le.mpr hv)]
    · exact decimalPlaces_toFixed 8 (by norm_num) v
  · intro v ht hq
    cases v with
    | undefined => exact absurd ht (by simp [JSVal.truthy])
    | null => exact absurd ht (by simp [JSVal.truthy])
    | bool b =>
      simp only [formatValue]
      rw [if_pos ht]
    | num q => exact absurd rfl (hq q)
    | str s =>
      simp only [formatValue]
      rw [if_pos ht]

/-- C9 witness: the numeric value 5 has magnitude at least 1 and is
rendered with exactly two decimal places. -/
theorem formatValue_spec_witness :
    formatValue (.num 5) = .str (toFixed 2 5) ∧ decimalPlaces (toFixed 2 5) = 2 :=
  formatValue_spec.1 5 (by norm_num)
